import Mathlib

/-!
Shallow embedding of the sjmb IRC bot core (event dispatch, throttled queues,
pattern ACLs, URL rewriting, config reload, URL enrichment jobs), translated
from the Rust sources under `src/`, together with theorems settling the
specification claims about it.

The external `regex` engine is represented abstractly by a `Regex` record of
its three entry points used by this program (`is_match`, `replace`,
`replace_all`); a concrete literal-substring instance is provided so that
statements can be evaluated on closed inputs.
-/

set_option maxHeartbeats 1000000
set_option maxRecDepth 16384

namespace Sjmb

/-! ## Abstract regular expression engine -/

/-- Abstract compiled regular expression: the external `regex::Regex` value,
represented by the three entry points the program uses.  `replaceFirst`
models `Regex::replace` (replaces the leftmost match only) and `replaceAll`
models `Regex::replace_all` (replaces every non-overlapping match). -/
structure Regex where
  is_match : String → Bool
  replaceFirst : String → String → String
  replaceAll : String → String → String

/-- Inert regex used only as the `getD` default in statements. -/
def dummyRe : Regex :=
  { is_match := fun _ => false, replaceFirst := fun s _ => s, replaceAll := fun s _ => s }

/-- Does `s` start with `pat` (character lists)? -/
def startsWithL : List Char → List Char → Bool
  | _, [] => true
  | [], _ :: _ => false
  | a :: as, b :: bs => a = b && startsWithL as bs

/-- Does `s` contain `pat` as a contiguous substring? -/
def containsSub (pat : List Char) : List Char → Bool
  | [] => pat.isEmpty
  | c :: rest => startsWithL (c :: rest) pat || containsSub pat rest

/-- Replace the leftmost occurrence of `pat` by `rep` (no occurrence: unchanged). -/
def replFirst (pat rep : List Char) : List Char → List Char
  | [] => []
  | c :: rest =>
    if ¬pat.isEmpty ∧ startsWithL (c :: rest) pat
    then rep ++ rest.drop (pat.length - 1)
    else c :: replFirst pat rep rest

/-- Fuel-driven scan for `replAll` (the fuel, initially the input length,
dominates the number of steps, making the recursion structural). -/
def replAllGo (pat rep : List Char) : Nat → List Char → List Char
  | _, [] => []
  | 0, s => s
  | fuel + 1, c :: rest =>
    if ¬pat.isEmpty ∧ startsWithL (c :: rest) pat
    then rep ++ replAllGo pat rep fuel (rest.drop (pat.length - 1))
    else c :: replAllGo pat rep fuel rest

/-- Replace every non-overlapping occurrence of `pat` by `rep`, left to right. -/
def replAll (pat rep s : List Char) : List Char :=
  replAllGo pat rep s.length s

/-- Concrete `Regex` instance for a literal (metacharacter-free) pattern:
matches iff the pattern occurs as a substring, `replace` rewrites the
leftmost occurrence, `replace_all` rewrites every occurrence.  Used to
evaluate the claims on closed inputs. -/
def substrRegex (pat : String) : Regex :=
  { is_match := fun s => containsSub pat.data s.data
    replaceFirst := fun s rep => ⟨replFirst pat.data rep.data s.data⟩
    replaceAll := fun s rep => ⟨replAll pat.data rep.data s.data⟩ }

/-! ## PatternACL (`ReAcl`, src/util.rs lines 97-126) -/

/-- Structure `ReAcl`: ordered ACL of rule texts with their compiled patterns
(parallel vectors, as in the source). -/
structure ReAcl where
  acl_str : List String
  acl_re : List Regex

/-- Loop body of `ReAcl::new`: compile every pattern in order, failing on the
first pattern the engine rejects (`Regex::new(s)?`). -/
def reAclNew (compile : String → Except String Regex) : List String → Except String ReAcl
  | [] => Except.ok ⟨[], []⟩
  | s :: rest => do
    let re ← compile s
    let acl ← reAclNew compile rest
    Except.ok ⟨s :: acl.acl_str, re :: acl.acl_re⟩

/-- Scan loop of `ReAcl::re_match`: walk `acl_re` with a running index `i`,
returning the first index whose pattern matches together with
`acl_str[i]` (src/util.rs lines 117-125). -/
def reMatchGo (acl_str : List String) (text : String) : Nat → List Regex → Option (Nat × String)
  | _, [] => none
  | i, re :: rest =>
    if re.is_match text then some (i, acl_str.getD i "")
    else reMatchGo acl_str text (i + 1) rest

/-- Method `ReAcl::re_match`: first matching rule, as `(index, rule text)`; `none`
when no rule matches.  Pure: takes `&self`, never mutates the ACL. -/
def ReAcl.re_match (self : ReAcl) (text : String) : Option (Nat × String) :=
  reMatchGo self.acl_str text 0 self.acl_re

/-! ## URLRewriteTable (`ReMut`, src/util.rs lines 128-157) -/

/-- Structure `ReMut`: ordered list of `(pattern, replacement)` rule texts with the
compiled patterns (parallel vectors, as in the source). -/
structure ReMut where
  re_str : List (String × String)
  re_vec : List Regex

/-- Loop body of `ReMut::new`: compile every pattern in order, failing on the
first pattern the engine rejects. -/
def reMutNew (compile : String → Except String Regex) : List (String × String) → Except String ReMut
  | [] => Except.ok ⟨[], []⟩
  | (s, r) :: rest => do
    let re ← compile s
    let t ← reMutNew compile rest
    Except.ok ⟨(s, r) :: t.re_str, re :: t.re_vec⟩

/-- Scan loop of `ReMut::re_mut`: first matching rule wins and the rewritten
text is `re.replace(text, replacement)` — the engine's leftmost-match
replacement (src/util.rs line 152). -/
def reMutGo (re_str : List (String × String)) (text : String) : Nat → List Regex → Option (Nat × String)
  | _, [] => none
  | i, re :: rest =>
    if re.is_match text then some (i, re.replaceFirst text (re_str.getD i ("", "")).2)
    else reMutGo re_str text (i + 1) rest

/-- Method `ReMut::re_mut`: first matching rule, as `(index, rewritten url)`; `none`
when no rule matches. -/
def ReMut.re_mut (self : ReMut) (text : String) : Option (Nat × String) :=
  reMutGo self.re_str text 0 self.re_vec

/-- Follows the spec's words, for comparison with `ReMut.re_mut` translated
from the source: identical scan, but the rewritten text uses the engine's
replace-all behavior ("all occurrences within the matched scope replaced
per the underlying engine's replace-all behavior"). -/
def reMutSpecGo (re_str : List (String × String)) (text : String) : Nat → List Regex → Option (Nat × String)
  | _, [] => none
  | i, re :: rest =>
    if re.is_match text then some (i, re.replaceAll text (re_str.getD i ("", "")).2)
    else reMutSpecGo re_str text (i + 1) rest

/-- Spec-worded variant of `ReMut.re_mut` (replace-all semantics). -/
def ReMut.re_mut_specAll (self : ReMut) (text : String) : Option (Nat × String) :=
  reMutSpecGo self.re_str text 0 self.re_vec


/-! ## Queued operations and messages (src/ircbot.rs lines 11-48) -/

/-- Timezone identifier (`chrono_tz::Tz`), represented by its name. -/
structure Tz where
  name : String
deriving DecidableEq

/-- The UTC timezone, the program's default. -/
def TzUTC : Tz := ⟨"UTC"⟩

/-- Fixed inter-operation throttle delay, milliseconds (src/ircbot.rs line 12). -/
def IRC_OP_THROTTLE : Nat := 2500

/-- Fixed inter-message throttle delay, milliseconds (src/ircbot.rs line 13). -/
def IRC_MSG_THROTTLE : Nat := 1500

/-- Enum `IrcOp`: tagged operation placed on the operation queue (src/ircbot.rs lines 31-42). -/
inductive IrcOp where
  | ModeVoice (channel nick : String)
  | ModeOper (channel nick : String)
  | Invite (nick channel : String)
  | Nick (newnick : String)
  | Join (channel : String)
  | UrlCheck (db url channel : String) (tz : Tz) (expire_days : Int)
  | UrlTitle (url channel : String)
  | UrlLog (db url channel nick : String) (ts : Int)
  | UrlFetch (url channel : String) (output_filter : Regex)

/-- Structure `IrcMsg`: a (target, text) chat reply placed on the message queue
(src/ircbot.rs lines 44-48). -/
structure IrcMsg where
  target : String
  msg : String
deriving DecidableEq

/-- Observable step of a queue consumer loop: executing one dequeued item
(with its success flag), logging an execution failure, or the fixed
throttle sleep. -/
inductive QEvent (α : Type) where
  | exec (item : α) (ok : Bool)
  | logError
  | sleep (ms : Nat)

/-- Single-consumer loop shared by `read_msg_queue` and `read_op_queue`
(src/ircbot.rs lines 572-594): the unbounded FIFO channel delivers items
in enqueue order, so the loop is modelled as a walk over the queued items
in that order; each item is executed, a failed execution is logged and the
loop proceeds, and a fixed throttle sleep follows every item. -/
def read_queue (run : α → Except String Unit) (throttle : Nat) : List α → List (QEvent α)
  | [] => []
  | item :: rest =>
    (match run item with
     | Except.ok _ => [QEvent.exec item true]
     | Except.error _ => [QEvent.exec item false, QEvent.logError])
    ++ QEvent.sleep throttle :: read_queue run throttle rest

/-- Consumer `read_msg_queue`: message-queue consumer, throttled by `IRC_MSG_THROTTLE`;
`send` is the transport's `send_privmsg`. -/
def read_msg_queue (send : IrcMsg → Except String Unit) (queued : List IrcMsg) : List (QEvent IrcMsg) :=
  read_queue send IRC_MSG_THROTTLE queued

/-- Consumer `read_op_queue`: operation-queue consumer, throttled by `IRC_OP_THROTTLE`;
`dispatch` is `op_dispatch` against the transport. -/
def read_op_queue (dispatch : IrcOp → Except String Unit) (queued : List IrcOp) : List (QEvent IrcOp) :=
  read_queue dispatch IRC_OP_THROTTLE queued

/-- Items executed by a consumer trace, in execution order. -/
def execItems : List (QEvent α) → List α
  | [] => []
  | QEvent.exec a _ :: r => a :: execItems r
  | QEvent.logError :: r => execItems r
  | QEvent.sleep _ :: r => execItems r

/-- Sleep durations of a consumer trace, in order. -/
def sleepDelays : List (QEvent α) → List Nat
  | [] => []
  | QEvent.sleep ms :: r => ms :: sleepDelays r
  | QEvent.exec _ _ :: r => sleepDelays r
  | QEvent.logError :: r => sleepDelays r

/-! ## Private-message dispatch (src/ircbot.rs lines 398-438) -/

/-- A registered privmsg handler: receives (msg, cmd, args) and reports
whether it reacted; may surface an error. -/
def MsgHandler : Type := String → String → String → Except String Bool

/-- First-match association-list lookup, modelling `HashMap::get` (keys are
unique in a `HashMap`, so first match is the match). -/
def lookupKV (m : List (String × α)) (key : String) : Option α :=
  (m.find? (fun p => p.1 = key)).map (fun p => p.2)

/-- Handler tables of the bot (src/ircbot.rs lines 177-182); only the two
privmsg tables are relevant here. -/
structure BotHandlers where
  handlers_privmsg_open : List (String × MsgHandler)
  handlers_privmsg_priv : List (String × MsgHandler)

/-- Method `IrcBot::handle_privmsg_priv`: look up `cmd` in the privileged table and
run the handler; unknown keyword means "did not recognize any command"
(`Ok(false)`). -/
def handle_privmsg_priv (hs : BotHandlers) (msg cmd args : String) : Except String Bool :=
  match lookupKV hs.handlers_privmsg_priv cmd with
  | some handler => handler msg cmd args
  | none => Except.ok false

/-- Method `IrcBot::handle_privmsg_open`: look up `cmd` in the open table and run
the handler; unknown keyword is `Ok(false)`. -/
def handle_privmsg_open (hs : BotHandlers) (msg cmd args : String) : Except String Bool :=
  match lookupKV hs.handlers_privmsg_open cmd with
  | some handler => handler msg cmd args
  | none => Except.ok false

/-- Method `IrcBot::handle_privmsg`: try the privileged table first, but only when
`privileged_nicks.get(&nick)` is `Some(true)`; a privileged handler
returning true short-circuits; otherwise the open table is tried; true
short-circuits; anything else is `Ok(false)`. -/
def handle_privmsg (privileged_nicks : List (String × Bool)) (hs : BotHandlers)
    (nick msg cmd args : String) : Except String Bool := do
  if lookupKV privileged_nicks nick = some true then
    if (← handle_privmsg_priv hs msg cmd args) then
      return true
  if (← handle_privmsg_open hs msg cmd args) then
    return true
  return false

/-! ## Whitespace collapsing (src/str_util.rs lines 38-46) -/

/-- Token accumulator for `split_whitespace`: splits on runs of whitespace,
discarding empty tokens (leading/trailing whitespace included). -/
def wsSplitGo (acc : List Char) : List Char → List (List Char)
  | [] => if acc.isEmpty then [] else [acc.reverse]
  | c :: rest =>
    if c.isWhitespace then
      if acc.isEmpty then wsSplitGo [] rest
      else acc.reverse :: wsSplitGo [] rest
    else wsSplitGo (c :: acc) rest

/-- Function `str::ws_collapse`: `split_whitespace().collect::<Vec<_>>().join(" ")` —
every run of whitespace becomes a single space, leading and trailing
whitespace disappears. -/
def ws_collapse (s : String) : String :=
  ⟨List.intercalate [' '] (wsSplitGo [] s.data)⟩


/-! ## UTF-8 byte-length machinery for title truncation -/

/-- UTF-8 byte length of a character list: Rust's `String::len`. -/
def utf8Len (s : List Char) : Nat :=
  (s.map Char.utf8Size).sum

/-- Rust `str::is_char_boundary`: `i` is a prefix sum of the characters'
UTF-8 sizes (always true at 0 and at the total length; false beyond it). -/
def isCharBoundary : List Char → Nat → Bool
  | [], i => i = 0
  | c :: rest, i =>
    if i = 0 then true
    else if i < c.utf8Size then false
    else isCharBoundary rest (i - c.utf8Size)

/-- Fuel-driven upward search for a character boundary; the fuel (ultimately
`utf8Len s + 1 - i`) dominates the number of steps, making the recursion
structural. -/
def findBoundaryGo (s : List Char) : Nat → Nat → Nat
  | 0, i => i
  | fuel + 1, i =>
    if utf8Len s ≤ i then utf8Len s
    else if isCharBoundary s i then i else findBoundaryGo s fuel (i + 1)

/-- The `loop { if title_c.is_char_boundary(i) { break } i += 1 }` search in
`op_handle_urltitle` (src/ircbot.rs lines 700-707): the first byte index
`≥ i` that is a character boundary (the total length is always one). -/
def findBoundary (s : List Char) (i : Nat) : Nat :=
  findBoundaryGo s (utf8Len s + 1 - i) i

/-- First component of `str::split_at(i)` for a byte index `i`: the longest
character prefix whose UTF-8 size fits in `i`, which is exactly the `i`-byte
prefix whenever `i` is a character boundary. -/
def takeBytes : List Char → Nat → List Char
  | [], _ => []
  | c :: rest, i => if c.utf8Size ≤ i then c :: takeBytes rest (i - c.utf8Size) else []

/-! ## The fetch-title operation (src/ircbot.rs lines 687-716) -/

/-- Truncation branch of `op_handle_urltitle` for collapsed titles longer
than 400 bytes: find a character boundary starting at byte 396, split
there, append the ellipsis marker. -/
def truncateTitle (title_c : String) : String :=
  ⟨takeBytes title_c.data (findBoundary title_c.data 396) ++ "...".data⟩

/-- Operation `op_handle_urltitle`: fetch the page (`fetched` is the outcome of
`get_text_body`, `none` for non-text content), parse the title
(`parseTitle` is `webpage::HTML::from_string(..).title`), skip titles that
equal the url verbatim, collapse whitespace, truncate past 400 bytes at a
character boundary with an ellipsis, and send one quoted reply to the
channel.  Returns the `send_privmsg` calls made. -/
def op_handle_urltitle (fetched : Except String (Option (String × String)))
    (parseTitle : String → Except String (Option String))
    (url channel : String) : Except String (List IrcMsg) :=
  match fetched with
  | Except.error e => Except.error e
  | Except.ok none => Except.ok []
  | Except.ok (some (body, _ct)) =>
    match parseTitle body with
    | Except.error e => Except.error e
    | Except.ok none => Except.ok []
    | Except.ok (some title) =>
      if title ≠ url then
        let title_c := ws_collapse title
        let title_c := if 400 < utf8Len title_c.data then truncateTitle title_c else title_c
        Except.ok [⟨channel, "\"" ++ title_c ++ "\""⟩]
      else
        Except.ok []

/-! ## Channel-keyed lookup with wildcard fallback (src/util.rs lines 50-52) -/

/-- Function `get_wild`: exact-key lookup, falling back to the `"*"` wildcard entry. -/
def get_wild (m : List (String × α)) (key : String) : Option α :=
  (lookupKV m key).orElse (fun _ => lookupKV m "*")

/-- Expiry-days selection at the `UrlCheck` enqueue site
(src/ircbot.rs line 514): `get_wild(&cfg.url_dup_expire_days, &channel).unwrap_or(&7)`. -/
def urlcheckExpireDays (m : List (String × Int)) (channel : String) : Int :=
  (get_wild m channel).getD 7

/-- Timezone selection at the `UrlCheck` enqueue site (src/ircbot.rs
line 516): `get_wild(cfg.url_dup_tz.., &channel).unwrap_or(&Tz::UTC)`. -/
def urlcheckTz (m : List (String × Tz)) (channel : String) : Tz :=
  (get_wild m channel).getD TzUTC

/-! ## URL history persistence (src/db_util.rs) -/

/-- Structure `UrlCtx`: one URL-history record (src/db_util.rs lines 26-32). -/
structure UrlCtx where
  ts : Int
  chan : String
  nick : String
  url : String
deriving DecidableEq

/-- Aggregate row returned by the duplicate query: sighting count and
first/last seen timestamps. -/
structure DbUrlAgg where
  cnt : Int
  first : Option Int
  last : Option Int
deriving DecidableEq

/-- Modelled from the spec: `db_check_url` lives in the `hash_util` module,
which is declared in src/lib.rs but absent from src/.  Per the spec's
persistence contract — "query(url, channel, window) → aggregate {count,
first_seen, last_seen}" over sightings of the same (url, channel) "within
a configurable expiry window (in days, converted to seconds)" — it
aggregates the stored records for that url and channel whose timestamp is
within `window` seconds of `now`, returning `none` when there is no such
prior sighting. -/
def db_check_url (store : List UrlCtx) (now : Int) (url channel : String)
    (window : Int) : Option DbUrlAgg :=
  let hits := store.filter
    (fun r => r.url == url && r.chan == channel && decide (now - window ≤ r.ts))
  match hits with
  | [] => none
  | h :: t =>
      some { cnt := (h :: t).length
             first := some (t.foldl (fun a r => min a r.ts) h.ts)
             last := some (t.foldl (fun a r => max a r.ts) h.ts) }

/-- The window argument of the `db_check_url` call inside
`op_handle_urlcheck` (src/ircbot.rs line 632): `exp_days * 86400`. -/
def dbQueryWindow (exp_days : Int) : Int :=
  exp_days * 86400

/-- Operation `op_handle_urlcheck` (src/ircbot.rs lines 620-658): query the history
for prior sightings of (url, channel) inside the expiry window; with
first/last timestamps present, a count of exactly 1 sends the "seen once"
message and a count above 1 sends the count/first/last message, both with
timestamps rendered in `tz` (`render` models the chrono
`from_timestamp(..).with_timezone(&tz)` display).  Returns the
`send_privmsg` calls made.  The database connection is abstracted to the
record store behind it. -/
def op_handle_urlcheck (store : List UrlCtx) (now : Int) (render : Int → Tz → String)
    (url channel : String) (tz : Tz) (exp_days : Int) : List IrcMsg :=
  match db_check_url store now url channel (dbQueryWindow exp_days) with
  | none => []
  | some old =>
    match old.first, old.last with
    | some first, some last =>
      if old.cnt = 1 then
        [⟨channel, "Wanha URL, nähty " ++ render first tz⟩]
      else if 1 < old.cnt then
        [⟨channel, "Wanha URL, nähty " ++ toString old.cnt ++ " kertaa, ensin " ++
            render first tz ++ " ja viimeksi " ++ render last tz⟩]
      else []
    | _, _ => []

/-! ## Bounded-retry insert (src/db_util.rs lines 8-9 and 57-90) -/

/-- Maximum number of insert attempts (src/db_util.rs line 8). -/
def RETRY_CNT : Nat := 5

/-- Fixed delay between insert attempts, seconds (src/db_util.rs line 9). -/
def RETRY_SLEEP : Nat := 1

/-- Observable step of `db_add_url`: an insert attempt (with its success
flag), the fixed inter-retry sleep, the change-mark update, or the final
"GAVE UP" log line. -/
inductive DbEvent where
  | insertAttempt (ok : Bool)
  | sleepRetry (secs : Nat)
  | markChange
  | logGaveUp
deriving DecidableEq

/-- The `while retry < RETRY_CNT` loop of `db_add_url`: `attempt k` is the
outcome of the k-th insert (rows affected on success); a success breaks
immediately with `retry = 0`; a failure is followed by the fixed sleep and
another try.  Returns (events, rowcnt, final retry counter); the fuel,
initially `RETRY_CNT`, counts the remaining loop iterations, and its
exhaustion is exactly the loop guard failing with `retry = RETRY_CNT`. -/
def insertLoopGo (attempt : Nat → Except String Nat) : Nat → Nat → List DbEvent × Nat × Nat
  | 0, retry => ([], 0, retry)
  | fuel + 1, retry =>
    match attempt retry with
    | Except.ok n => ([DbEvent.insertAttempt true], n, 0)
    | Except.error _ =>
      let r := insertLoopGo attempt fuel (retry + 1)
      (DbEvent.insertAttempt false :: DbEvent.sleepRetry RETRY_SLEEP :: r.1, r.2.1, r.2.2)

/-- Function `db_add_url` (src/db_util.rs lines 57-90): run the bounded-retry insert
loop; then, when `update_change` is set (as `start_db` always sets it),
run `db_mark_change`, whose failure propagates through `?` before the
give-up log line is reached; log "GAVE UP" when the loop exhausted all
retries; finally return `Ok(rowcnt)`.  Returns the event trace together
with the function's result, by case on the `update_change` flag and the
change-mark outcome. -/
def db_add_url (attempt : Nat → Except String Nat) :
    Bool → Except String Unit → List DbEvent × Except String Nat
  | true, Except.error e =>
      ((insertLoopGo attempt RETRY_CNT 0).1 ++ [DbEvent.markChange], Except.error e)
  | true, Except.ok _ =>
      ((insertLoopGo attempt RETRY_CNT 0).1 ++ [DbEvent.markChange]
        ++ (if 0 < (insertLoopGo attempt RETRY_CNT 0).2.2 then [DbEvent.logGaveUp] else []),
       Except.ok (insertLoopGo attempt RETRY_CNT 0).2.1)
  | false, _ =>
      ((insertLoopGo attempt RETRY_CNT 0).1
        ++ (if 0 < (insertLoopGo attempt RETRY_CNT 0).2.2 then [DbEvent.logGaveUp] else []),
       Except.ok (insertLoopGo attempt RETRY_CNT 0).2.1)

/-! ## Runtime configuration construction and reload (src/ircbot.rs lines 50-175 and 273-288) -/

/-- Structure `UrlCmd`: a templated remote-fetch command (src/ircbot.rs lines 50-57). -/
structure UrlCmd where
  url_tmpl : String
  output_filter : String
  output_filter_re : Option Regex

/-- Structure `BotConfig` (src/ircbot.rs lines 59-121): the serde-loaded fields plus
the `#[serde(skip)]` compiled fields, which are `none` until
`BotConfig::new` fills them.  `HashMap`s are modelled as association
lists; the `Tera` template store as the list of added (name, template)
pairs. -/
structure BotConfig where
  irc_log_dir : String
  channel : String
  privileged_nicks : List (String × Bool)
  url_regex : String
  url_log_db : String
  url_blacklist : List String
  url_fetch_channels : List (String × Bool)
  url_cmd_channels : List (String × Bool)
  url_mut_channels : List (String × Bool)
  url_log_channels : List (String × Bool)
  url_dup_complain_channels : List (String × Bool)
  url_dup_expire_days : List (String × Int)
  url_dup_timezone : List (String × String)
  cmd_dumpacl : String
  cmd_invite : String
  cmd_join : String
  cmd_mode_o : String
  cmd_mode_v : String
  cmd_nick : String
  cmd_reload : String
  cmd_say : String
  mode_o_acl : List String
  auto_o_acl : List String
  invite_bl_userhost : List String
  invite_bl_nick : List String
  url_cmd_list : List (String × UrlCmd)
  url_mut_list : List (String × String)
  mode_o_acl_rt : Option ReAcl
  auto_o_acl_rt : Option ReAcl
  invite_bl_userhost_rt : Option ReAcl
  invite_bl_nick_rt : Option ReAcl
  url_re : Option Regex
  url_cmd_tera : Option (List (String × String))
  url_mut_re : Option ReMut
  url_dup_tz : Option (List (String × Tz))

/-- External collaborators used by `BotConfig::new`: file read + JSON parse,
`shellexpand::full`, `Regex::new`, `Tera::add_raw_template`, and
`str::parse::<Tz>`. -/
structure Env where
  readConfig : String → Except String BotConfig
  expand : String → Except String String
  compile : String → Except String Regex
  addTemplate : String → String → Except String Unit
  parseTz : String → Except String Tz

/-- Loop of `BotConfig::new` over `url_cmd_list`: register each command's
template with Tera and compile its output filter, failing on the first
error. -/
def compileUrlCmds (compile : String → Except String Regex)
    (addTemplate : String → String → Except String Unit) :
    List (String × UrlCmd) → Except String (List (String × UrlCmd))
  | [] => Except.ok []
  | (k, c) :: rest => do
    let _ ← addTemplate k c.url_tmpl
    let re ← compile c.output_filter
    let r ← compileUrlCmds compile addTemplate rest
    Except.ok ((k, { c with output_filter_re := some re }) :: r)

/-- Loop of `BotConfig::new` over `url_dup_timezone`: parse every timezone
identifier, bailing out of the whole construction on the first
unparseable one (src/ircbot.rs lines 153-165). -/
def parseTzList (parseTz : String → Except String Tz) :
    List (String × String) → Except String (List (String × Tz))
  | [] => Except.ok []
  | (k, v) :: rest =>
    match parseTz v with
    | Except.ok tz => do
      let r ← parseTzList parseTz rest
      Except.ok ((k, tz) :: r)
    | Except.error e =>
      Except.error ("error parsing url_dup_timezone \"" ++ k ++ "\": \"" ++ v ++ "\" - " ++ e)

/-- Constructor `BotConfig::new` (src/ircbot.rs lines 123-174): read and parse the
config file, expand paths, compile all four ACLs, the URL-detection
regex, the templated commands and the rewrite table, and parse the
per-channel timezones — any failure aborts the whole construction. -/
def BotConfig.new (env : Env) (config_file : String) : Except String BotConfig := do
  let config ← env.readConfig config_file
  let log_dir ← env.expand config.irc_log_dir
  let log_db ← env.expand config.url_log_db
  let mo ← reAclNew env.compile config.mode_o_acl
  let ao ← reAclNew env.compile config.auto_o_acl
  let bu ← reAclNew env.compile config.invite_bl_userhost
  let bn ← reAclNew env.compile config.invite_bl_nick
  let ure ← env.compile config.url_regex
  let cmds ← compileUrlCmds env.compile env.addTemplate config.url_cmd_list
  let mr ← reMutNew env.compile config.url_mut_list
  let tzs ← parseTzList env.parseTz config.url_dup_timezone
  Except.ok { config with
    irc_log_dir := log_dir
    url_log_db := log_db
    url_cmd_list := cmds
    mode_o_acl_rt := some mo
    auto_o_acl_rt := some ao
    invite_bl_userhost_rt := some bu
    invite_bl_nick_rt := some bn
    url_re := some ure
    url_cmd_tera := some (cmds.map (fun p => (p.1, p.2.url_tmpl)))
    url_mut_re := some mr
    url_dup_tz := some tzs }

/-- Method `IrcBot::reload` (src/ircbot.rs lines 273-288): build a fresh
`BotConfig`; on success install it wholesale (`*self.config.write() =
cfg`) and return `Ok(true)`; on failure leave the current snapshot in
place and return the error.  Result is (installed snapshot, returned
value). -/
def reload (env : Env) (config_file : String) (current : BotConfig) :
    BotConfig × Except String Bool :=
  match BotConfig.new env config_file with
  | Except.ok cfg => (cfg, Except.ok true)
  | Except.error e =>
      (current, Except.error ("Could not parse runtime config " ++ config_file ++ ": " ++ e))

/-! ## Per-URL processing of a channel message (src/ircbot.rs lines 490-560) -/

/-- Rust `Option::unwrap` / `ok_or_else(..)?` on the compiled config fields:
absence surfaces as a failure of the surrounding fallible function. -/
def optUnwrap (o : Option α) (msg : String) : Except String α :=
  match o with
  | some a => Except.ok a
  | none => Except.error msg

/-- The `IrcOp::UrlCheck` operation enqueued by `handle_chanmsg` for one
detected URL (src/ircbot.rs lines 513-525): carries the database path, the
URL, the channel, the channel's timezone (wildcard fallback, defaulting to
UTC) and the channel's expiry days (wildcard fallback, defaulting to 7). -/
def urlcheckOp (cfg : BotConfig) (tzs : List (String × Tz)) (channel url_s : String) : IrcOp :=
  IrcOp.UrlCheck cfg.url_log_db url_s channel (urlcheckTz tzs channel)
    (urlcheckExpireDays cfg.url_dup_expire_days channel)

/-- Body of `handle_chanmsg`'s loop for one detected URL (src/ircbot.rs
lines 497-559): skip blacklisted URLs; on a log-enabled channel enqueue a
`UrlCheck` (when duplicate complaints are enabled, with the channel's
timezone defaulting to UTC and expiry days defaulting to 7) followed by a
`UrlLog`; on a fetch-enabled channel enqueue a `UrlTitle`; on a
mutation-enabled channel whose rewrite table matches, send the rewritten
URL and enqueue a `UrlTitle` for it.  Returns (enqueued operations,
enqueued messages) in enqueue order. -/
def processUrl (cfg : BotConfig) (now : Int) (channel nick url_s : String) :
    Except String (List IrcOp × List IrcMsg) := do
  if cfg.url_blacklist.any (fun b => url_s.startsWith b) then
    return ([], [])
  let logOps ←
    if get_wild cfg.url_log_channels channel = some true then do
      let dupOps ←
        if get_wild cfg.url_dup_complain_channels channel = some true then do
          let tzs ← optUnwrap cfg.url_dup_tz "url_dup_tz is None"
          Except.ok [urlcheckOp cfg tzs channel url_s]
        else Except.ok []
      Except.ok (dupOps ++ [IrcOp.UrlLog cfg.url_log_db url_s channel nick now])
    else Except.ok []
  let fetchOps :=
    if get_wild cfg.url_fetch_channels channel = some true then
      [IrcOp.UrlTitle url_s channel]
    else []
  let mutPart ←
    if get_wild cfg.url_mut_channels channel = some true then do
      let mr ← optUnwrap cfg.url_mut_re "No url_mut_re"
      match mr.re_mut url_s with
      | some (_i, new_url) =>
          Except.ok ([IrcOp.UrlTitle new_url channel], [(⟨channel, new_url⟩ : IrcMsg)])
      | none => Except.ok (([] : List IrcOp), ([] : List IrcMsg))
    else Except.ok (([] : List IrcOp), ([] : List IrcMsg))
  Except.ok (logOps ++ fetchOps ++ mutPart.1, mutPart.2)

/-! ## Theorems -/

theorem execItems_read_queue (run : α → Except String Unit) (t : Nat) (q : List α) :
    execItems (read_queue run t q) = q := by
  induction q with
  | nil => rfl
  | cons a rest ih =>
    rw [read_queue]
    cases run a <;> simp [execItems, ih]

theorem sleepDelays_read_queue (run : α → Except String Unit) (t : Nat) (q : List α) :
    sleepDelays (read_queue run t q) = List.replicate q.length t := by
  induction q with
  | nil => rfl
  | cons a rest ih =>
    rw [read_queue]
    cases run a <;> simp [sleepDelays, ih, List.replicate_succ]

theorem read_queue_logs_failure (run : α → Except String Unit) (t : Nat) (q : List α)
    (a : α) (e : String) (ha : a ∈ q) (he : run a = Except.error e) :
    QEvent.logError ∈ read_queue run t q := by
  induction q with
  | nil => cases ha
  | cons b rest ih =>
    rw [read_queue]
    rcases List.mem_cons.mp ha with rfl | hmem
    · rw [he]; simp
    · cases run b <;> simp [ih hmem]

/-- C1: for each of the operation queue and the message queue, the single
consumer executes the queued items exactly in enqueue order (a failed item
is logged, never retried or re-queued, and every later item still runs),
and a fixed throttle delay — `IRC_OP_THROTTLE` respectively
`IRC_MSG_THROTTLE` — follows every executed item, so consecutive
executions are separated by exactly that delay. -/
theorem C1_queue_order (dispatch : IrcOp → Except String Unit)
    (send : IrcMsg → Except String Unit) (ops : List IrcOp) (msgs : List IrcMsg) :
    execItems (read_op_queue dispatch ops) = ops
    ∧ execItems (read_msg_queue send msgs) = msgs
    ∧ sleepDelays (read_op_queue dispatch ops) = List.replicate ops.length IRC_OP_THROTTLE
    ∧ sleepDelays (read_msg_queue send msgs) = List.replicate msgs.length IRC_MSG_THROTTLE
    ∧ (∀ op e, op ∈ ops → dispatch op = Except.error e →
        QEvent.logError ∈ read_op_queue dispatch ops)
    ∧ (∀ m e, m ∈ msgs → send m = Except.error e →
        QEvent.logError ∈ read_msg_queue send msgs) := by
  refine ⟨execItems_read_queue .., execItems_read_queue .., sleepDelays_read_queue ..,
    sleepDelays_read_queue .., ?_, ?_⟩
  · exact fun op e hmem herr => read_queue_logs_failure dispatch IRC_OP_THROTTLE ops op e hmem herr
  · exact fun m e hmem herr => read_queue_logs_failure send IRC_MSG_THROTTLE msgs m e hmem herr

/-- Closed instance of `C1_queue_order`: a two-element operation queue whose
dispatcher always fails still executes both items in order and logs the
failures; a one-element message queue is sent and throttled once. -/
theorem C1_queue_order_witness :
    execItems (read_op_queue (fun _ => Except.error "sendfail") [IrcOp.Nick "x", IrcOp.Join "#c"])
      = [IrcOp.Nick "x", IrcOp.Join "#c"]
    ∧ sleepDelays (read_msg_queue (fun _ => Except.ok ()) [⟨"#c", "hi"⟩])
      = List.replicate 1 IRC_MSG_THROTTLE
    ∧ QEvent.logError ∈
        read_op_queue (fun _ => Except.error "sendfail") [IrcOp.Nick "x", IrcOp.Join "#c"] := by
  have h := C1_queue_order (fun _ => Except.error "sendfail") (fun _ => Except.ok ())
    [IrcOp.Nick "x", IrcOp.Join "#c"] [⟨"#c", "hi"⟩]
  exact ⟨h.1, h.2.2.2.1, h.2.2.2.2.1 (IrcOp.Nick "x") "sendfail" (by simp) rfl⟩

/-- C4: a private message addressed to the bot consults the privileged
handler table only when the sender is in the privileged-sender map with
value true; when the privileged lookup is skipped (sender not privileged)
or the privileged stage reports false, the open table is consulted; a
handler returning true short-circuits; a keyword matching no handler in
either applicable table yields `Ok(false)` (unhandled). -/
theorem C4_privmsg_dispatch (pn : List (String × Bool)) (hs : BotHandlers)
    (nick msg cmd args : String) :
    (lookupKV pn nick ≠ some true →
      handle_privmsg pn hs nick msg cmd args = handle_privmsg_open hs msg cmd args)
    ∧ (lookupKV pn nick = some true →
      handle_privmsg_priv hs msg cmd args = Except.ok true →
      handle_privmsg pn hs nick msg cmd args = Except.ok true)
    ∧ (lookupKV pn nick = some true →
      handle_privmsg_priv hs msg cmd args = Except.ok false →
      handle_privmsg pn hs nick msg cmd args = handle_privmsg_open hs msg cmd args)
    ∧ (lookupKV hs.handlers_privmsg_priv cmd = none →
      lookupKV hs.handlers_privmsg_open cmd = none →
      handle_privmsg pn hs nick msg cmd args = Except.ok false) := by
  refine ⟨?_, ?_, ?_, ?_⟩
  · intro hnp
    rw [handle_privmsg, if_neg hnp]
    cases ho : handle_privmsg_open hs msg cmd args with
    | error e => rfl
    | ok b => cases b <;> rfl
  · intro hp hpriv
    rw [handle_privmsg, if_pos hp, hpriv]
    rfl
  · intro hp hpriv
    rw [handle_privmsg, if_pos hp, hpriv]
    cases ho : handle_privmsg_open hs msg cmd args with
    | error e => rfl
    | ok b => cases b <;> rfl
  · intro hprivn hopenn
    have hpriv : handle_privmsg_priv hs msg cmd args = Except.ok false := by
      rw [handle_privmsg_priv, hprivn]
    have hopen : handle_privmsg_open hs msg cmd args = Except.ok false := by
      rw [handle_privmsg_open, hopenn]
    rw [handle_privmsg]
    by_cases hp : lookupKV pn nick = some true
    · rw [if_pos hp, hpriv, hopen]
      rfl
    · rw [if_neg hp, hopen]
      rfl

/-- Closed instance of `C4_privmsg_dispatch`: with empty handler tables any
keyword is unhandled, and a non-privileged sender goes straight to the
open table. -/
theorem C4_privmsg_dispatch_witness :
    handle_privmsg [("alice", true)] ⟨[], []⟩ "bob" "hello world" "hello" "world"
      = Except.ok false
    ∧ handle_privmsg [("alice", true)] ⟨[], []⟩ "bob" "hello world" "hello" "world"
      = handle_privmsg_open ⟨[], []⟩ "hello world" "hello" "world" := by
  have h := C4_privmsg_dispatch [("alice", true)] ⟨[], []⟩ "bob" "hello world" "hello" "world"
  exact ⟨h.2.2.2 rfl rfl, h.1 (by decide)⟩

/-- C10: when the expiry-days map has neither an exact entry for the channel
nor a wildcard `"*"` entry, the enqueued check-duplicate-url operation
carries exactly 7 expiry days, and the duplicate query issued by
`op_handle_urlcheck` uses the window `7 * 86400 = 604800` seconds. -/
theorem C10_default_expiry (cfg : BotConfig) (tzs : List (String × Tz))
    (channel url_s : String)
    (h1 : lookupKV cfg.url_dup_expire_days channel = none)
    (h2 : lookupKV cfg.url_dup_expire_days "*" = none) :
    urlcheckExpireDays cfg.url_dup_expire_days channel = 7
    ∧ urlcheckOp cfg tzs channel url_s
      = IrcOp.UrlCheck cfg.url_log_db url_s channel (urlcheckTz tzs channel) 7
    ∧ dbQueryWindow (urlcheckExpireDays cfg.url_dup_expire_days channel) = 604800 := by
  have hd : urlcheckExpireDays cfg.url_dup_expire_days channel = 7 := by
    rw [urlcheckExpireDays, get_wild, h1, h2]
    rfl
  refine ⟨hd, ?_, ?_⟩
  · rw [urlcheckOp, hd]
  · rw [hd, dbQueryWindow]
    decide

/-- Closed instance of `C10_default_expiry` on an expiry-days map holding
only an unrelated channel. -/
theorem C10_default_expiry_witness :
    urlcheckExpireDays [("#other", 30)] "#mychan" = 7
    ∧ dbQueryWindow (urlcheckExpireDays [("#other", 30)] "#mychan") = 604800 := by
  have h := C10_default_expiry
    { irc_log_dir := "", channel := "#mychan", privileged_nicks := [], url_regex := ""
      url_log_db := "urls.db", url_blacklist := [], url_fetch_channels := []
      url_cmd_channels := [], url_mut_channels := [], url_log_channels := []
      url_dup_complain_channels := [], url_dup_expire_days := [("#other", 30)]
      url_dup_timezone := [], cmd_dumpacl := "", cmd_invite := "", cmd_join := ""
      cmd_mode_o := "", cmd_mode_v := "", cmd_nick := "", cmd_reload := "", cmd_say := ""
      mode_o_acl := [], auto_o_acl := [], invite_bl_userhost := [], invite_bl_nick := []
      url_cmd_list := [], url_mut_list := [], mode_o_acl_rt := none, auto_o_acl_rt := none
      invite_bl_userhost_rt := none, invite_bl_nick_rt := none, url_re := none
      url_cmd_tera := none, url_mut_re := none, url_dup_tz := none }
    [] "#mychan" "http://x/" rfl rfl
  exact ⟨h.1, h.2.2⟩

theorem reMatchGo_eq_none_iff (strs : List String) (text : String) (res : List Regex) :
    ∀ i : Nat, (reMatchGo strs text i res = none ↔ ∀ re ∈ res, re.is_match text = false) := by
  induction res with
  | nil => intro i; simp [reMatchGo]
  | cons re rest ih =>
    intro i
    rw [reMatchGo]
    by_cases hm : re.is_match text = true
    · simp [hm]
    · simp only [if_neg hm, ih (i + 1), List.mem_cons]
      constructor
      · intro h r hr
        rcases hr with rfl | hr
        · exact Bool.not_eq_true _ |>.mp hm
        · exact h r hr
      · intro h r hr
        exact h r (Or.inr hr)

theorem reMatchGo_eq_some (strs : List String) (text : String) (res : List Regex) :
    ∀ (i j : Nat) (t : String), reMatchGo strs text i res = some (j, t) →
      i ≤ j ∧ j - i < res.length
      ∧ (res.getD (j - i) dummyRe).is_match text = true
      ∧ (∀ l, l < j - i → (res.getD l dummyRe).is_match text = false)
      ∧ t = strs.getD j "" := by
  induction res with
  | nil =>
    intro i j t h
    exact absurd h (by simp [reMatchGo])
  | cons re rest ih =>
    intro i j t h
    rw [reMatchGo] at h
    by_cases hm : re.is_match text = true
    · rw [if_pos hm] at h
      have hpair := Option.some.inj h
      have hj : i = j := congrArg Prod.fst hpair
      have ht : strs.getD i "" = t := congrArg Prod.snd hpair
      subst hj
      subst ht
      refine ⟨Nat.le_refl i, by simp, by simpa [Nat.sub_self] using hm, ?_, rfl⟩
      intro l hl
      omega
    · rw [if_neg hm] at h
      obtain ⟨h1, h2, h3, h4, h5⟩ := ih (i + 1) j t h
      have hji : j - i = (j - (i + 1)) + 1 := by omega
      refine ⟨by omega, ?_, ?_, ?_, h5⟩
      · simp only [List.length_cons]
        omega
      · rw [hji, List.getD_cons_succ]
        exact h3
      · intro l hl
        match l with
        | 0 => simpa [List.getD_cons_zero] using Bool.not_eq_true _ |>.mp hm
        | Nat.succ m =>
          rw [List.getD_cons_succ]
          exact h4 m (by omega)

theorem reAclNew_ok (compile : String → Except String Regex) :
    ∀ (rules : List String) (acl : ReAcl), reAclNew compile rules = Except.ok acl →
      acl.acl_str = rules ∧ acl.acl_re.length = rules.length
      ∧ ∀ i, i < rules.length →
          compile (rules.getD i "") = Except.ok (acl.acl_re.getD i dummyRe) := by
  intro rules
  induction rules with
  | nil =>
    intro acl h
    have : acl = ⟨[], []⟩ := (Except.ok.inj h).symm
    subst this
    exact ⟨rfl, rfl, fun i hi => absurd hi (by simp)⟩
  | cons s rest ih =>
    intro acl h
    rw [reAclNew] at h
    cases hc : compile s with
    | error e =>
      rw [hc] at h
      exact absurd h (by simp [Bind.bind, Except.bind])
    | ok re =>
      rw [hc] at h
      cases hr : reAclNew compile rest with
      | error e =>
        rw [hr] at h
        exact absurd h (by simp [Bind.bind, Except.bind])
      | ok t =>
        rw [hr] at h
        have hacl : acl = ⟨s :: t.acl_str, re :: t.acl_re⟩ := by
          have : Except.ok (ε := String) (⟨s :: t.acl_str, re :: t.acl_re⟩ : ReAcl)
              = Except.ok acl := h
          exact (Except.ok.inj this).symm
        subst hacl
        obtain ⟨hstr, hlen, hcomp⟩ := ih t hr
        refine ⟨by rw [hstr], by simp [hlen], ?_⟩
        intro i hi
        match i with
        | 0 => simpa using hc
        | Nat.succ m =>
          simp only [List.getD_cons_succ]
          exact hcomp m (by simpa using hi)

/-- C2: `ReAcl::re_match` returns `some (i, t)` exactly when `i` is the
lowest index whose compiled pattern matches the identity string, with `t`
the original rule text at that index (each compiled pattern being the
successful compilation of its rule text), and returns `none` when no rule
matches — in particular on an empty rule list.  The match is a pure
read: the embedding takes the ACL immutably and returns only the result. -/
theorem C2_acl_first_match (compile : String → Except String Regex)
    (rules : List String) (acl : ReAcl) (s : String)
    (hnew : reAclNew compile rules = Except.ok acl) :
    (∀ i t, acl.re_match s = some (i, t) →
      i < acl.acl_re.length
      ∧ (acl.acl_re.getD i dummyRe).is_match s = true
      ∧ (∀ j, j < i → (acl.acl_re.getD j dummyRe).is_match s = false)
      ∧ t = rules.getD i ""
      ∧ compile (rules.getD i "") = Except.ok (acl.acl_re.getD i dummyRe))
    ∧ (acl.re_match s = none ↔ ∀ re ∈ acl.acl_re, re.is_match s = false) := by
  obtain ⟨hstr, hlen, hcomp⟩ := reAclNew_ok compile rules acl hnew
  constructor
  · intro i t h
    obtain ⟨_, h2, h3, h4, h5⟩ := reMatchGo_eq_some acl.acl_str s acl.acl_re 0 i t h
    rw [Nat.sub_zero] at h2 h3 h4
    exact ⟨h2, h3, h4, by rw [h5, hstr], hcomp i (by omega)⟩
  · exact reMatchGo_eq_none_iff acl.acl_str s acl.acl_re 0

/-- Closed instance of `C2_acl_first_match`: on the two-rule ACL
`["x", "a"]` the identity `"baa"` matches rule index 1, whose rule text is
returned verbatim. -/
theorem C2_acl_first_match_witness :
    ReAcl.re_match ⟨["x", "a"], [substrRegex "x", substrRegex "a"]⟩ "baa" = some (1, "a")
    ∧ "a" = ["x", "a"].getD 1 ""
    ∧ 1 < 2 := by
  have h := C2_acl_first_match (fun p => Except.ok (substrRegex p)) ["x", "a"]
    ⟨["x", "a"], [substrRegex "x", substrRegex "a"]⟩ "baa" rfl
  have h1 := h.1 1 "a" (by decide)
  exact ⟨by decide, h1.2.2.2.1, h1.1⟩

theorem reMutGo_eq_none_iff (rs : List (String × String)) (text : String) (res : List Regex) :
    ∀ i : Nat, (reMutGo rs text i res = none ↔ ∀ re ∈ res, re.is_match text = false) := by
  induction res with
  | nil => intro i; simp [reMutGo]
  | cons re rest ih =>
    intro i
    rw [reMutGo]
    by_cases hm : re.is_match text = true
    · simp [hm]
    · simp only [if_neg hm, ih (i + 1), List.mem_cons]
      constructor
      · intro h r hr
        rcases hr with rfl | hr
        · exact Bool.not_eq_true _ |>.mp hm
        · exact h r hr
      · intro h r hr
        exact h r (Or.inr hr)

theorem reMutGo_eq_some (rs : List (String × String)) (text : String) (res : List Regex) :
    ∀ (i j : Nat) (t : String), reMutGo rs text i res = some (j, t) →
      i ≤ j ∧ j - i < res.length
      ∧ (res.getD (j - i) dummyRe).is_match text = true
      ∧ (∀ l, l < j - i → (res.getD l dummyRe).is_match text = false)
      ∧ t = (res.getD (j - i) dummyRe).replaceFirst text (rs.getD j ("", "")).2 := by
  induction res with
  | nil =>
    intro i j t h
    exact absurd h (by simp [reMutGo])
  | cons re rest ih =>
    intro i j t h
    rw [reMutGo] at h
    by_cases hm : re.is_match text = true
    · rw [if_pos hm] at h
      have hpair := Option.some.inj h
      have hj : i = j := congrArg Prod.fst hpair
      have ht : re.replaceFirst text (rs.getD i ("", "")).2 = t := congrArg Prod.snd hpair
      subst hj
      subst ht
      refine ⟨Nat.le_refl i, by simp, by simpa [Nat.sub_self] using hm, ?_, by simp⟩
      intro l hl
      omega
    · rw [if_neg hm] at h
      obtain ⟨h1, h2, h3, h4, h5⟩ := ih (i + 1) j t h
      have hji : j - i = (j - (i + 1)) + 1 := by omega
      refine ⟨by omega, ?_, ?_, ?_, ?_⟩
      · simp only [List.length_cons]
        omega
      · rw [hji, List.getD_cons_succ]
        exact h3
      · intro l hl
        match l with
        | 0 => simpa [List.getD_cons_zero] using Bool.not_eq_true _ |>.mp hm
        | Nat.succ m =>
          rw [List.getD_cons_succ]
          exact h4 m (by omega)
      · rw [hji, List.getD_cons_succ]
        exact h5

/-- C5 counterexample: on the one-rule table rewriting pattern `a` to `b`,
the input `"aa"` (two occurrences in the matched scope) is rewritten by
the code to `"ba"` — the engine's `replace`, leftmost occurrence only —
whereas the claim's replace-all reading demands `"bb"`.  The claim as
stated is therefore false at this input. -/
theorem C5_replace_all_counterexample :
    ReMut.re_mut ⟨[("a", "b")], [substrRegex "a"]⟩ "aa" = some (0, "ba")
    ∧ ReMut.re_mut_specAll ⟨[("a", "b")], [substrRegex "a"]⟩ "aa" = some (0, "bb")
    ∧ ReMut.re_mut ⟨[("a", "b")], [substrRegex "a"]⟩ "aa"
      ≠ ReMut.re_mut_specAll ⟨[("a", "b")], [substrRegex "a"]⟩ "aa" := by
  decide

/-- C5 as amended: `ReMut::re_mut` returns `none` iff no rule's pattern
matches the URL; otherwise it returns the index of the first matching
rule (in declaration order) together with the URL transformed by that
rule's replacement, with only the leftmost match rewritten, per the
engine's `replace` (first-match) behavior. -/
theorem C5_re_mut_first_match (table : ReMut) (u : String) :
    (ReMut.re_mut table u = none ↔ ∀ re ∈ table.re_vec, re.is_match u = false)
    ∧ (∀ i s, ReMut.re_mut table u = some (i, s) →
      i < table.re_vec.length
      ∧ (table.re_vec.getD i dummyRe).is_match u = true
      ∧ (∀ j, j < i → (table.re_vec.getD j dummyRe).is_match u = false)
      ∧ s = (table.re_vec.getD i dummyRe).replaceFirst u (table.re_str.getD i ("", "")).2) := by
  constructor
  · exact reMutGo_eq_none_iff table.re_str u table.re_vec 0
  · intro i s h
    obtain ⟨_, h2, h3, h4, h5⟩ := reMutGo_eq_some table.re_str u table.re_vec 0 i s h
    rw [Nat.sub_zero] at h2 h3 h4 h5
    exact ⟨h2, h3, h4, h5⟩

/-- Closed instance of `C5_re_mut_first_match`: the rewrite of `"aa"` by the
one-rule table is produced by the first rule and equals the leftmost-match
replacement `"ba"`. -/
theorem C5_re_mut_first_match_witness :
    ReMut.re_mut ⟨[("a", "b")], [substrRegex "a"]⟩ "aa" = some (0, "ba")
    ∧ "ba" = (substrRegex "a").replaceFirst "aa" "b"
    ∧ 0 < 1 := by
  have h := C5_re_mut_first_match ⟨[("a", "b")], [substrRegex "a"]⟩ "aa"
  have h1 := h.2 0 "ba" (by decide)
  exact ⟨by decide, h1.2.2.2, h1.1⟩

/-- An empty configuration snapshot, used as the concrete pre-reload
snapshot in closed instances. -/
def cfg0 : BotConfig :=
  { irc_log_dir := "", channel := "#chat", privileged_nicks := [("alice", true)]
    url_regex := "", url_log_db := "urls.db", url_blacklist := []
    url_fetch_channels := [], url_cmd_channels := [], url_mut_channels := []
    url_log_channels := [], url_dup_complain_channels := [], url_dup_expire_days := []
    url_dup_timezone := [], cmd_dumpacl := "dumpacl", cmd_invite := "invite"
    cmd_join := "join", cmd_mode_o := "op", cmd_mode_v := "voice", cmd_nick := "nick"
    cmd_reload := "reload", cmd_say := "say", mode_o_acl := [], auto_o_acl := []
    invite_bl_userhost := [], invite_bl_nick := [], url_cmd_list := [], url_mut_list := []
    mode_o_acl_rt := none, auto_o_acl_rt := none, invite_bl_userhost_rt := none
    invite_bl_nick_rt := none, url_re := none, url_cmd_tera := none, url_mut_re := none
    url_dup_tz := none }

/-- C3: a reload that fails for any reason leaves the previously installed
snapshot in place, bit for bit — same ACLs, channel and command keywords —
and returns the error to the requester; a successful construction replaces
the snapshot wholesale with the freshly built one.  An unreadable or
malformed config file in particular fails the whole construction. -/
theorem C3_reload_atomic (env : Env) (config_file : String) (current : BotConfig) :
    (∀ e, BotConfig.new env config_file = Except.error e →
      reload env config_file current
        = (current, Except.error ("Could not parse runtime config " ++ config_file ++ ": " ++ e)))
    ∧ (∀ cfg, BotConfig.new env config_file = Except.ok cfg →
      reload env config_file current = (cfg, Except.ok true))
    ∧ (∀ e, env.readConfig config_file = Except.error e →
      BotConfig.new env config_file = Except.error e) := by
  refine ⟨?_, ?_, ?_⟩
  · intro e he
    rw [reload, he]
  · intro cfg hc
    rw [reload, hc]
  · intro e he
    rw [BotConfig.new, he]
    rfl

/-- Closed instance of `C3_reload_atomic`: with a loader that rejects the
config file, `reload` keeps the old snapshot `cfg0` and returns the
error. -/
theorem C3_reload_atomic_witness :
    reload ⟨fun _ => Except.error "malformed json", fun s => Except.ok s,
        fun _ => Except.ok dummyRe, fun _ _ => Except.ok (), fun _ => Except.ok TzUTC⟩
      "sjmb.json" cfg0
      = (cfg0, Except.error ("Could not parse runtime config " ++ "sjmb.json" ++ ": " ++ "malformed json")) := by
  have h := C3_reload_atomic ⟨fun _ => Except.error "malformed json", fun s => Except.ok s,
    fun _ => Except.ok dummyRe, fun _ _ => Except.ok (), fun _ => Except.ok TzUTC⟩
    "sjmb.json" cfg0
  exact h.1 "malformed json" (h.2.2 "malformed json" rfl)

/-- C6: the check-duplicate-url operation stays silent when no prior
sighting of the same (url, channel) pair lies within the expiry window;
exactly one prior sighting produces the single "seen once" message
carrying the first-seen timestamp; several prior sightings produce the
single message carrying the sighting count and the first-seen and
last-seen timestamps; every timestamp is rendered through the channel's
timezone `tz`, whose selection at the enqueue site defaults to UTC when
the timezone map has neither an exact nor a wildcard entry. -/
theorem C6_urlcheck_messages (store : List UrlCtx) (now : Int) (render : Int → Tz → String)
    (url channel : String) (tz : Tz) (exp_days : Int) (tzm : List (String × Tz)) :
    (store.filter (fun r => r.url == url && r.chan == channel
        && decide (now - dbQueryWindow exp_days ≤ r.ts)) = [] →
      op_handle_urlcheck store now render url channel tz exp_days = [])
    ∧ (∀ h, store.filter (fun r => r.url == url && r.chan == channel
        && decide (now - dbQueryWindow exp_days ≤ r.ts)) = [h] →
      op_handle_urlcheck store now render url channel tz exp_days
        = [⟨channel, "Wanha URL, nähty " ++ render h.ts tz⟩])
    ∧ (∀ h t, store.filter (fun r => r.url == url && r.chan == channel
        && decide (now - dbQueryWindow exp_days ≤ r.ts)) = h :: t → t ≠ [] →
      op_handle_urlcheck store now render url channel tz exp_days
        = [⟨channel, "Wanha URL, nähty " ++ toString (((h :: t).length : Nat) : Int)
            ++ " kertaa, ensin " ++ render (t.foldl (fun a r => min a r.ts) h.ts) tz
            ++ " ja viimeksi " ++ render (t.foldl (fun a r => max a r.ts) h.ts) tz⟩])
    ∧ (lookupKV tzm channel = none → lookupKV tzm "*" = none →
      urlcheckTz tzm channel = TzUTC) := by
  refine ⟨?_, ?_, ?_, ?_⟩
  · intro hf
    rw [op_handle_urlcheck, db_check_url]
    rw [hf]
  · intro h hf
    rw [op_handle_urlcheck, db_check_url]
    rw [hf]
    simp
  · intro h t hf ht
    rw [op_handle_urlcheck, db_check_url]
    rw [hf]
    match t with
    | [] => exact absurd rfl ht
    | x :: xs =>
      have hne : (((h :: x :: xs).length : Nat) : Int) ≠ 1 := by
        simp only [List.length_cons]
        omega
      have hgt : (1 : Int) < (((h :: x :: xs).length : Nat) : Int) := by
        simp only [List.length_cons]
        omega
      simp only [if_neg hne, if_pos hgt]
  · intro h1 h2
    rw [urlcheckTz, get_wild, h1, h2]
    rfl

/-- Closed instance of `C6_urlcheck_messages`: a store holding two prior
sightings of the url on the channel, both inside a 1-day window, yields
exactly the "seen 2 times, first 100, last 200" message. -/
theorem C6_urlcheck_messages_witness :
    op_handle_urlcheck [⟨100, "#c", "nick1", "http://u/"⟩, ⟨200, "#c", "nick2", "http://u/"⟩]
        300 (fun i _ => toString i) "http://u/" "#c" TzUTC 1
      = [⟨"#c", "Wanha URL, nähty " ++ toString ((2 : Nat) : Int)
          ++ " kertaa, ensin " ++ toString (100 : Int)
          ++ " ja viimeksi " ++ toString (200 : Int)⟩] := by
  have h := C6_urlcheck_messages
    [⟨100, "#c", "nick1", "http://u/"⟩, ⟨200, "#c", "nick2", "http://u/"⟩]
    300 (fun i _ => toString i) "http://u/" "#c" TzUTC 1 []
  have h3 := h.2.2.1 ⟨100, "#c", "nick1", "http://u/"⟩ [⟨200, "#c", "nick2", "http://u/"⟩]
    (by decide) (by decide)
  exact h3

/-- C7 counterexample: the suppression check in `op_handle_urltitle`
compares the raw extracted title to the URL before whitespace collapsing
(`title != url`, src/ircbot.rs line 695).  A title equal to the URL plus a
trailing space collapses to exactly the URL, yet a reply is still sent —
so the claim that such a fetch yields no chat reply is false at this
input. -/
theorem C7_collapsed_title_counterexample :
    ws_collapse "http://a/b " = "http://a/b"
    ∧ "http://a/b " ≠ "http://a/b"
    ∧ op_handle_urltitle (Except.ok (some ("<html>", "text/html")))
        (fun _ => Except.ok (some "http://a/b ")) "http://a/b" "#c"
      = Except.ok [⟨"#c", "\"http://a/b\""⟩]
    ∧ op_handle_urltitle (Except.ok (some ("<html>", "text/html")))
        (fun _ => Except.ok (some "http://a/b ")) "http://a/b" "#c"
      ≠ Except.ok [] := by
  have heq : op_handle_urltitle (Except.ok (some ("<html>", "text/html")))
      (fun _ => Except.ok (some "http://a/b ")) "http://a/b" "#c"
      = Except.ok [⟨"#c", "\"http://a/b\""⟩] := by rfl
  refine ⟨by decide, by decide, heq, ?_⟩
  intro hcontra
  rw [heq] at hcontra
  exact absurd (Except.ok.inj hcontra) (by decide)

/-- C7 as amended: for every fetch-title operation whose fetched page yields
an extracted title that is character-for-character identical to the
submitted URL string before whitespace collapsing, no chat reply is
produced; a title that becomes identical to the URL only after
whitespace collapsing still produces a (collapsed) reply. -/
theorem C7_title_suppression (fetched : Except String (Option (String × String)))
    (parse : String → Except String (Option String)) (body ct url channel : String)
    (hf : fetched = Except.ok (some (body, ct)))
    (hp : parse body = Except.ok (some url)) :
    op_handle_urltitle fetched parse url channel = Except.ok [] := by
  subst hf
  rw [op_handle_urltitle]
  rw [hp]
  simp

/-- Closed instance of `C7_title_suppression`: a page whose title is exactly
the URL produces no reply. -/
theorem C7_title_suppression_witness :
    op_handle_urltitle (Except.ok (some ("<html>", "text/html")))
      (fun _ => Except.ok (some "http://a/b")) "http://a/b" "#c" = Except.ok [] := by
  exact C7_title_suppression (Except.ok (some ("<html>", "text/html")))
    (fun _ => Except.ok (some "http://a/b")) "<html>" "text/html" "http://a/b" "#c" rfl rfl

theorem isCharBoundary_utf8Len (s : List Char) : isCharBoundary s (utf8Len s) = true := by
  induction s with
  | nil => rfl
  | cons c rest ih =>
    rw [isCharBoundary]
    have hpos : 0 < c.utf8Size := Char.utf8Size_pos c
    have hlen : utf8Len (c :: rest) = c.utf8Size + utf8Len rest := by
      simp [utf8Len]
    rw [hlen]
    rw [if_neg (by omega), if_neg (by omega)]
    simpa [Nat.add_sub_cancel_left] using ih

theorem findBoundaryGo_spec (s : List Char) :
    ∀ fuel i, 1 ≤ fuel → utf8Len s < i + fuel →
      isCharBoundary s (findBoundaryGo s fuel i) = true
      ∧ findBoundaryGo s fuel i ≤ utf8Len s := by
  intro fuel
  induction fuel with
  | zero => intro i h1 _; omega
  | succ f ih =>
    intro i _ h2
    rw [findBoundaryGo]
    by_cases hle : utf8Len s ≤ i
    · rw [if_pos hle]
      exact ⟨isCharBoundary_utf8Len s, Nat.le_refl _⟩
    · rw [if_neg hle]
      by_cases hb : isCharBoundary s i = true
      · rw [if_pos hb]
        exact ⟨hb, by omega⟩
      · rw [if_neg hb]
        exact ih (i + 1) (by omega) (by omega)

theorem findBoundary_spec (s : List Char) (i : Nat) (hi : i ≤ utf8Len s) :
    isCharBoundary s (findBoundary s i) = true ∧ findBoundary s i ≤ utf8Len s := by
  rw [findBoundary]
  exact findBoundaryGo_spec s (utf8Len s + 1 - i) i (by omega) (by omega)

theorem takeBytes_isPrefix (s : List Char) : ∀ i, takeBytes s i <+: s := by
  induction s with
  | nil => intro i; simp [takeBytes]
  | cons c rest ih =>
    intro i
    rw [takeBytes]
    by_cases h : c.utf8Size ≤ i
    · rw [if_pos h]
      exact List.cons_prefix_cons.mpr ⟨rfl, ih (i - c.utf8Size)⟩
    · rw [if_neg h]
      exact List.nil_prefix

/-- Collapsed title of 201 two-byte characters: 201 characters but 402
UTF-8 bytes, i.e. within a 400-character budget yet above 400 bytes. -/
def longTitle : String := ⟨List.replicate 201 'ä'⟩

/-- C8 counterexample: the cut budget of `op_handle_urltitle` is measured in
UTF-8 bytes (`String::len`), not characters.  A title of 201 two-byte
characters — 201 characters, well within a 400-character budget — is 402
bytes long and is therefore truncated rather than sent unmodified, so the
claim's character-budget reading is false at this input. -/
theorem C8_char_budget_counterexample :
    longTitle.data.length = 201 ∧ (201 : Nat) ≤ 400
    ∧ utf8Len longTitle.data = 402
    ∧ ws_collapse longTitle = longTitle
    ∧ op_handle_urltitle (Except.ok (some ("<b>", "text/html")))
        (fun _ => Except.ok (some longTitle)) "http://u/" "#c"
      ≠ Except.ok [⟨"#c", "\"" ++ longTitle ++ "\""⟩] := by
  refine ⟨by decide, by decide, by decide, by decide, ?_⟩
  intro hcontra
  have heq : op_handle_urltitle (Except.ok (some ("<b>", "text/html")))
      (fun _ => Except.ok (some longTitle)) "http://u/" "#c"
      = Except.ok [⟨"#c", "\"" ++ truncateTitle (ws_collapse longTitle) ++ "\""⟩] := rfl
  rw [heq] at hcontra
  exact absurd (Except.ok.inj hcontra) (by decide)

/-- C8 as amended: whenever the whitespace-collapsed title exceeds the
400-byte (UTF-8 `String::len`) cut budget, the reply text is a prefix of
the collapsed title cut at an index that is a valid UTF-8 character
boundary within the string — so the split cannot fail — with the ellipsis
marker appended; titles within the byte budget are sent unmodified. -/
theorem C8_truncation_boundary (title url channel body ct : String) (hne : title ≠ url) :
    (400 < utf8Len (ws_collapse title).data →
      op_handle_urltitle (Except.ok (some (body, ct))) (fun _ => Except.ok (some title))
          url channel
        = Except.ok [⟨channel, "\"" ++ truncateTitle (ws_collapse title) ++ "\""⟩]
      ∧ isCharBoundary (ws_collapse title).data (findBoundary (ws_collapse title).data 396) = true
      ∧ findBoundary (ws_collapse title).data 396 ≤ utf8Len (ws_collapse title).data
      ∧ truncateTitle (ws_collapse title)
        = ⟨takeBytes (ws_collapse title).data (findBoundary (ws_collapse title).data 396)
            ++ "...".data⟩
      ∧ takeBytes (ws_collapse title).data (findBoundary (ws_collapse title).data 396)
          <+: (ws_collapse title).data)
    ∧ (utf8Len (ws_collapse title).data ≤ 400 →
      op_handle_urltitle (Except.ok (some (body, ct))) (fun _ => Except.ok (some title))
          url channel
        = Except.ok [⟨channel, "\"" ++ ws_collapse title ++ "\""⟩]) := by
  constructor
  · intro hlong
    have hb := findBoundary_spec (ws_collapse title).data 396 (by omega)
    refine ⟨?_, hb.1, hb.2, rfl, takeBytes_isPrefix (ws_collapse title).data _⟩
    show (if title ≠ url then
        Except.ok [(⟨channel, "\"" ++ (if 400 < utf8Len (ws_collapse title).data
          then truncateTitle (ws_collapse title) else ws_collapse title) ++ "\""⟩ : IrcMsg)]
      else (Except.ok [] : Except String (List IrcMsg))) = _
    rw [if_pos hne, if_pos hlong]
  · intro hshort
    have hnl : ¬400 < utf8Len (ws_collapse title).data := by omega
    show (if title ≠ url then
        Except.ok [(⟨channel, "\"" ++ (if 400 < utf8Len (ws_collapse title).data
          then truncateTitle (ws_collapse title) else ws_collapse title) ++ "\""⟩ : IrcMsg)]
      else (Except.ok [] : Except String (List IrcMsg))) = _
    rw [if_pos hne, if_neg hnl]

/-- Closed instance of `C8_truncation_boundary` at the 402-byte collapsed
title: the cut index is a valid character boundary not beyond the string,
and the reply is the ellipsis-terminated truncation. -/
theorem C8_truncation_boundary_witness :
    400 < utf8Len (ws_collapse longTitle).data
    ∧ isCharBoundary (ws_collapse longTitle).data
        (findBoundary (ws_collapse longTitle).data 396) = true
    ∧ findBoundary (ws_collapse longTitle).data 396 ≤ utf8Len (ws_collapse longTitle).data
    ∧ op_handle_urltitle (Except.ok (some ("<b>", "text/html")))
        (fun _ => Except.ok (some longTitle)) "http://u/" "#c"
      = Except.ok [⟨"#c", "\"" ++ truncateTitle (ws_collapse longTitle) ++ "\""⟩] := by
  have h := C8_truncation_boundary longTitle "http://u/" "#c" "<b>" "text/html" (by decide)
  have h1 := h.1 (by decide)
  exact ⟨by decide, h1.2.1, h1.2.2.1, h1.1⟩

/-- Number of insert attempts recorded in a `db_add_url` event trace. -/
def countAttempts (evs : List DbEvent) : Nat :=
  evs.countP (fun e => match e with | DbEvent.insertAttempt _ => true | _ => false)

theorem countAttempts_append (a b : List DbEvent) :
    countAttempts (a ++ b) = countAttempts a + countAttempts b :=
  List.countP_append _ a b

theorem insertLoopGo_attempts_le (attempt : Nat → Except String Nat) :
    ∀ fuel retry, countAttempts (insertLoopGo attempt fuel retry).1 ≤ fuel := by
  intro fuel
  induction fuel with
  | zero => intro retry; simp [insertLoopGo, countAttempts]
  | succ f ih =>
    intro retry
    cases hA : attempt retry with
    | ok n => simp [insertLoopGo, hA, countAttempts]
    | error e =>
      have hrec := ih (retry + 1)
      simp only [insertLoopGo, hA]
      simp only [countAttempts, List.countP_cons] at hrec ⊢
      simp
      omega

theorem insertLoopGo_sleeps_fixed (attempt : Nat → Except String Nat) :
    ∀ fuel retry secs, DbEvent.sleepRetry secs ∈ (insertLoopGo attempt fuel retry).1 →
      secs = RETRY_SLEEP := by
  intro fuel
  induction fuel with
  | zero => intro retry secs h; simp [insertLoopGo] at h
  | succ f ih =>
    intro retry secs h
    cases hA : attempt retry with
    | ok n =>
      rw [insertLoopGo] at h
      rw [hA] at h
      simp at h
    | error e =>
      rw [insertLoopGo] at h
      rw [hA] at h
      simp only [List.mem_cons] at h
      rcases h with h | h | h
      · cases h
      · exact (DbEvent.sleepRetry.inj h).symm ▸ rfl
      · exact ih (retry + 1) secs h

theorem insertLoopGo_all_fail (attempt : Nat → Except String Nat) :
    ∀ fuel retry, (∀ j, retry ≤ j → j < retry + fuel → ∃ e, attempt j = Except.error e) →
      countAttempts (insertLoopGo attempt fuel retry).1 = fuel
      ∧ (insertLoopGo attempt fuel retry).2.1 = 0
      ∧ (insertLoopGo attempt fuel retry).2.2 = retry + fuel := by
  intro fuel
  induction fuel with
  | zero =>
    intro retry _
    exact ⟨by simp [insertLoopGo, countAttempts], rfl, by simp [insertLoopGo]⟩
  | succ f ih =>
    intro retry hAF
    obtain ⟨e, he⟩ := hAF retry (Nat.le_refl retry) (by omega)
    obtain ⟨ih1, ih2, ih3⟩ := ih (retry + 1) (fun j h1 h2 => hAF j (by omega) (by omega))
    rw [insertLoopGo, he]
    refine ⟨?_, ih2, by simp only []; rw [ih3]; omega⟩
    simp only [countAttempts, List.countP_cons] at ih1 ⊢
    simp
    omega

theorem insertLoopGo_first_success (attempt : Nat → Except String Nat) :
    ∀ fuel retry k n, retry ≤ k → k < retry + fuel → attempt k = Except.ok n →
      (∀ j, retry ≤ j → j < k → ∃ e, attempt j = Except.error e) →
      countAttempts (insertLoopGo attempt fuel retry).1 = k - retry + 1
      ∧ (insertLoopGo attempt fuel retry).2.1 = n
      ∧ (insertLoopGo attempt fuel retry).2.2 = 0 := by
  intro fuel
  induction fuel with
  | zero => intro retry k n h1 h2 _ _; omega
  | succ f ih =>
    intro retry k n h1 h2 hok hfails
    by_cases hk : k = retry
    · subst hk
      rw [insertLoopGo, hok]
      refine ⟨?_, rfl, rfl⟩
      simp [countAttempts]
    · obtain ⟨e, he⟩ := hfails retry (Nat.le_refl retry) (by omega)
      obtain ⟨ih1, ih2, ih3⟩ := ih (retry + 1) k n (by omega) (by omega) hok
        (fun j ha hb => hfails j (by omega) hb)
      rw [insertLoopGo, he]
      refine ⟨?_, ih2, ih3⟩
      simp only [countAttempts, List.countP_cons] at ih1 ⊢
      simp
      omega

theorem countAttempts_gaveUpIf (c : Prop) [Decidable c] :
    countAttempts (if c then [DbEvent.logGaveUp] else []) = 0 := by
  split <;> rfl

theorem countAttempts_cons_mark (l : List DbEvent) :
    countAttempts (DbEvent.markChange :: l) = countAttempts l := by
  simp [countAttempts, List.countP_cons]

theorem db_add_url_countAttempts (attempt : Nat → Except String Nat) (uc : Bool)
    (mark : Except String Unit) :
    countAttempts (db_add_url attempt uc mark).1
      = countAttempts (insertLoopGo attempt RETRY_CNT 0).1 := by
  have hmc : countAttempts [DbEvent.markChange] = 0 := rfl
  cases uc <;> cases mark <;>
    simp [db_add_url, countAttempts_append, hmc, countAttempts_gaveUpIf,
      countAttempts_cons_mark]

theorem db_add_url_sleepMem (attempt : Nat → Except String Nat) (uc : Bool)
    (mark : Except String Unit) (secs : Nat)
    (h : DbEvent.sleepRetry secs ∈ (db_add_url attempt uc mark).1) :
    DbEvent.sleepRetry secs ∈ (insertLoopGo attempt RETRY_CNT 0).1 := by
  have hgu : ∀ c : Prop, ∀ _ : Decidable c,
      DbEvent.sleepRetry secs ∈ (if c then [DbEvent.logGaveUp] else []) → False := by
    intro c hc hmem
    revert hmem
    split <;> simp
  cases uc with
  | false =>
    cases mark <;>
      · simp only [db_add_url, List.mem_append] at h
        rcases h with h | h
        · exact h
        · exact absurd h (fun hm => hgu _ _ hm)
  | true =>
    cases mark with
    | error e =>
      simp only [db_add_url, List.mem_append] at h
      rcases h with h | h
      · exact h
      · simp at h
    | ok u =>
      simp only [db_add_url, List.mem_append] at h
      rcases h with (h | h) | h
      · exact h
      · simp at h
      · exact absurd h (fun hm => hgu _ _ hm)

theorem db_add_url_snd_ok (attempt : Nat → Except String Nat) (uc : Bool)
    (mark : Except String Unit) (hm : uc = false ∨ mark = Except.ok ()) :
    (db_add_url attempt uc mark).2 = Except.ok (insertLoopGo attempt RETRY_CNT 0).2.1 := by
  rcases hm with rfl | rfl
  · cases mark <;> rfl
  · cases uc <;> rfl

theorem db_add_url_gaveUp (attempt : Nat → Except String Nat) (uc : Bool)
    (mark : Except String Unit) (hm : uc = false ∨ mark = Except.ok ())
    (hpos : 0 < (insertLoopGo attempt RETRY_CNT 0).2.2) :
    DbEvent.logGaveUp ∈ (db_add_url attempt uc mark).1 := by
  rcases hm with rfl | rfl
  · cases mark <;> simp [db_add_url, if_pos hpos]
  · cases uc <;> simp [db_add_url, if_pos hpos]

/-- C9 counterexample: when every insert attempt fails and the subsequent
`db_mark_change` update (always enabled by `start_db`) also fails, its
error propagates through `?`, so `db_add_url` does not return successfully
— refuting the claim that after exhausted retries the function still
returns `Ok` with zero rows affected. -/
theorem C9_insert_error_propagation_counterexample :
    countAttempts (db_add_url (fun _ => Except.error "insert failed") true
        (Except.error "mark failed")).1 = RETRY_CNT
    ∧ (db_add_url (fun _ => Except.error "insert failed") true
        (Except.error "mark failed")).2 = Except.error "mark failed"
    ∧ (db_add_url (fun _ => Except.error "insert failed") true
        (Except.error "mark failed")).2 ≠ Except.ok 0 := by
  have heq : (db_add_url (fun _ => Except.error "insert failed") true
      (Except.error "mark failed")).2 = Except.error "mark failed" := rfl
  refine ⟨by decide, heq, ?_⟩
  intro h
  rw [heq] at h
  exact Except.noConfusion h

/-- C9 as amended: the insert of `db_add_url` is attempted at most
`RETRY_CNT` times with the fixed `RETRY_SLEEP` delay after each failed
attempt; the first successful attempt stops the retrying immediately and
its row count is returned; when every attempt fails, the give-up is
logged and the function still returns `Ok(0)` — the insert failure itself
is never propagated — provided the follow-up change-mark update succeeds
(or is disabled); a failure of that follow-up update is the one error the
function does propagate. -/
theorem C9_bounded_retry (attempt : Nat → Except String Nat) (uc : Bool)
    (mark : Except String Unit) :
    countAttempts (db_add_url attempt uc mark).1 ≤ RETRY_CNT
    ∧ (∀ secs, DbEvent.sleepRetry secs ∈ (db_add_url attempt uc mark).1 →
        secs = RETRY_SLEEP)
    ∧ ((∀ j, j < RETRY_CNT → ∃ e, attempt j = Except.error e) →
        countAttempts (db_add_url attempt uc mark).1 = RETRY_CNT
        ∧ ((uc = false ∨ mark = Except.ok ()) →
            DbEvent.logGaveUp ∈ (db_add_url attempt uc mark).1
            ∧ (db_add_url attempt uc mark).2 = Except.ok 0)
        ∧ (∀ e, uc = true → mark = Except.error e →
            (db_add_url attempt uc mark).2 = Except.error e))
    ∧ (∀ k n, k < RETRY_CNT → attempt k = Except.ok n →
        (∀ j, j < k → ∃ e, attempt j = Except.error e) →
        countAttempts (db_add_url attempt uc mark).1 = k + 1
        ∧ ((uc = false ∨ mark = Except.ok ()) →
            (db_add_url attempt uc mark).2 = Except.ok n)) := by
  refine ⟨?_, ?_, ?_, ?_⟩
  · rw [db_add_url_countAttempts]
    exact insertLoopGo_attempts_le attempt RETRY_CNT 0
  · intro secs h
    exact insertLoopGo_sleeps_fixed attempt RETRY_CNT 0 secs
      (db_add_url_sleepMem attempt uc mark secs h)
  · intro hAF
    obtain ⟨hc, hr, hf⟩ := insertLoopGo_all_fail attempt RETRY_CNT 0
      (fun j _ h2 => hAF j (by omega))
    have hpos : 0 < (insertLoopGo attempt RETRY_CNT 0).2.2 := by
      rw [hf]; decide
    refine ⟨by rw [db_add_url_countAttempts, hc], ?_, ?_⟩
    · intro hm
      exact ⟨db_add_url_gaveUp attempt uc mark hm hpos,
        by rw [db_add_url_snd_ok attempt uc mark hm, hr]⟩
    · intro e huc hmark
      subst huc
      subst hmark
      rfl
  · intro k n hk hok hfails
    obtain ⟨hc, hr, _⟩ := insertLoopGo_first_success attempt RETRY_CNT 0 k n
      (Nat.zero_le k) (by omega) hok (fun j _ hb => hfails j hb)
    rw [Nat.sub_zero] at hc
    refine ⟨by rw [db_add_url_countAttempts, hc], ?_⟩
    intro hm
    rw [db_add_url_snd_ok attempt uc mark hm, hr]

/-- Closed instance of `C9_bounded_retry`: two failing attempts followed by
a success stop the loop at the third attempt and return its row count;
with all attempts failing, the trace shows all `RETRY_CNT` attempts and
the result is `Ok(0)` when the change-mark update succeeds. -/
theorem C9_bounded_retry_witness :
    countAttempts (db_add_url
        (fun k => if k < 2 then Except.error "locked" else Except.ok 1) true
        (Except.ok ())).1 = 3
    ∧ (db_add_url (fun k => if k < 2 then Except.error "locked" else Except.ok 1) true
        (Except.ok ())).2 = Except.ok 1
    ∧ countAttempts (db_add_url (fun _ => Except.error "locked") true (Except.ok ())).1
      = RETRY_CNT
    ∧ (db_add_url (fun _ => Except.error "locked") true (Except.ok ())).2 = Except.ok 0 := by
  have h1 := C9_bounded_retry
    (fun k => if k < 2 then Except.error "locked" else Except.ok 1) true (Except.ok ())
  have hsucc := h1.2.2.2 2 1 (by decide) (by simp)
    (fun j hj => ⟨"locked", by simp [hj]⟩)
  have h2 := C9_bounded_retry (fun _ => Except.error "locked") true (Except.ok ())
  have hfail := h2.2.2.1 (fun j _ => ⟨"locked", rfl⟩)
  exact ⟨hsucc.1, hsucc.2 (Or.inr rfl), hfail.1, (hfail.2.1 (Or.inr rfl)).2⟩

end Sjmb
